import Mathlib

/-!
Verification development for the cognee Ontotext GraphDB adapter
(`cognee/infrastructure/databases/graph/ontotext/get_ontotext_graph_db.py`).

The adapter is shallowly embedded: its pure string functions become Lean
functions on `String`/`List Char`, Python runtime failures (NameError,
IndexError) become `Except PyErr`, and the external SPARQL triple store is
modelled as a list of RDF(-star) triples with standard SPARQL semantics for
the exact queries the adapter issues.  All character-level helpers use
structural recursion so that every definition evaluates inside `decide`.
-/

namespace Ontotext

/-- Python runtime errors that the adapter's code paths can raise. -/
inductive PyErr where
  | nameError
  | indexError
  deriving DecidableEq, Repr

/-- Python values that reach `_format_literal` / `serialize_properties` in the
claims under study.  Floats are carried by the text that Python's `str()`
produces for them, since only that text ever reaches the generated SPARQL.
(The `UUID` and `dict` branches of `serialize_properties` are outside the
value types any claim mentions and are not modelled.) -/
inductive PyVal where
  | none
  | bool (b : Bool)
  | int (n : Int)
  | float (repr : String)
  | str (s : String)
  deriving DecidableEq, Repr

/-! ### Character-level string helpers (structural, `decide`-friendly) -/

/-- First occurrence of `sep` in `cs`: `some (before, after)` where `before`
is the text before the match and `after` the text after it; `none` when `sep`
does not occur.  For nonempty `sep` this matches Python's leftmost search. -/
def findSplit (sep : List Char) : List Char → Option (List Char × List Char)
  | [] => if sep = [] then some ([], []) else none
  | c :: rest =>
    if sep.isPrefixOf (c :: rest) then some ([], (c :: rest).drop sep.length)
    else (findSplit sep rest).map (fun pr => (c :: pr.1, pr.2))

/-- Text after the last occurrence of `sep`, or `none` if `sep` never occurs.
For the separators the adapter uses (single characters and marker strings
with no self-overlap) this equals the last element of Python's
`s.split(sep)`. -/
def afterLastOpt (sep : List Char) : List Char → Option (List Char)
  | [] => none
  | c :: rest =>
    match afterLastOpt sep rest with
    | some r => some r
    | Option.none =>
      if sep.isPrefixOf (c :: rest) then some ((c :: rest).drop sep.length)
      else none

/-- Python's `s.split(sep)[-1]`: suffix after the last occurrence of `sep`
(the whole string when `sep` does not occur). -/
def lastPiece (sep cs : List Char) : List Char := (afterLastOpt sep cs).getD cs

/-- Python's `s.split(sep)[1]`: the piece between the first occurrence of
`sep` and the following one (`none` — an IndexError — when `sep` does not
occur, since the split then has a single element). -/
def secondPiece (sep cs : List Char) : Option (List Char) :=
  (findSplit sep cs).map (fun pr =>
    match findSplit sep pr.2 with
    | some pr2 => pr2.1
    | none => pr.2)

/-- Python's `sub in s` substring test. -/
def pyContains (s sub : String) : Bool := (findSplit sub.data s.data).isSome

/-- Python's `s.startswith(pre)`. -/
def pyStartsWith (s p : String) : Bool := p.data.isPrefixOf s.data

/-- Python's `s.split(sep)[-1]` on strings. -/
def pyLastPiece (sep s : String) : String := String.mk (lastPiece sep.data s.data)

/-- Python's `s.split(sep)[1]` on strings, `none` when it would raise
IndexError. -/
def pySecondPiece (sep s : String) : Option String :=
  (secondPiece sep.data s.data).map String.mk

/-- Python's `s.lower()` (ASCII case mapping; every string the adapter
manipulates in the claims is ASCII). -/
def pyLower (s : String) : String := String.mk (s.data.map Char.toLower)

/-- Python's `s.replace(" ", "_")`. -/
def pySpaceToUnderscore (s : String) : String :=
  String.mk (s.data.map (fun c => if c = ' ' then '_' else c))

/-- ASCII whitespace, as stripped by Python's `str.strip()`. -/
def isPyWhite (c : Char) : Bool := c = ' ' || c = '\t' || c = '\n' || c = '\r'

/-- Python's `s.strip()`. -/
def pyStrip (s : String) : String :=
  String.mk (((s.data.dropWhile isPyWhite).reverse.dropWhile isPyWhite).reverse)

/-- Python's `s.rstrip("/")`. -/
def pyRStripSlash (s : String) : String :=
  String.mk ((s.data.reverse.dropWhile (fun c => c = '/')).reverse)

/-! ### RFC 3987 IRI validity

Modelled from the spec: the adapter's `is_uri` calls the external `rfc3987`
library's `parse(string, rule="IRI")`, which matches the whole string against
the RFC 3987 `IRI` grammar (`scheme ":" ihier-part ["?" iquery] ["#"
ifragment]`).  The checker below implements that grammar; `ucschar` is
approximated by "code point ≥ U+00A0", which agrees with RFC 3987 on every
string appearing in this development. -/

def isSchemeChar (c : Char) : Bool :=
  c.isAlpha || c.isDigit || c = '+' || c = '-' || c = '.'

def isScheme (cs : List Char) : Bool :=
  match cs with
  | [] => false
  | c :: rest => c.isAlpha && rest.all isSchemeChar

def isUcsChar (c : Char) : Bool := c.val ≥ 0xA0

def isIUnreserved (c : Char) : Bool :=
  c.isAlpha || c.isDigit || c = '-' || c = '.' || c = '_' || c = '~' || isUcsChar c

def isSubDelim (c : Char) : Bool :=
  c = '!' || c = '$' || c = '&' || c = '\'' || c = '(' || c = ')' ||
  c = '*' || c = '+' || c = ',' || c = ';' || c = '='

def isIPChar (c : Char) : Bool :=
  isIUnreserved c || isSubDelim c || c = ':' || c = '@'

def isHexDig (c : Char) : Bool := c.isDigit || ('a' ≤ c && c ≤ 'f') || ('A' ≤ c && c ≤ 'F')

/-- Scan a character sequence allowing `allowed` characters and `%HH`
percent-encoded bytes. -/
def okChars (allowed : Char → Bool) : List Char → Bool
  | [] => true
  | '%' :: a :: b :: rest => isHexDig a && isHexDig b && okChars allowed rest
  | c :: rest => allowed c && okChars allowed rest

/-- Split at the first occurrence of character `c`. -/
def splitCharFirst (c : Char) (cs : List Char) : Option (List Char × List Char) :=
  findSplit [c] cs

/-- `iuserinfo`: `*( iunreserved / pct-encoded / sub-delims / ":" )`. -/
def isIUserInfo (cs : List Char) : Bool :=
  okChars (fun c => isIUnreserved c || isSubDelim c || c = ':') cs

/-- `ihost [":" port]` — `ireg-name` host characters with an optional numeric
port after the last colon; bracketed IP literals allow hex digits, dots and
colons between the brackets. -/
def isHostPort (cs : List Char) : Bool :=
  match cs with
  | '[' :: rest =>
    match afterLastOpt [']'] rest with
    | some portPart =>
      (rest.take (rest.length - portPart.length - 1)).all
          (fun c => isHexDig c || c = ':' || c = '.' || c = 'v') &&
        (portPart = [] || (portPart.head? = some ':' && portPart.tail.all Char.isDigit))
    | none => false
  | _ =>
    match afterLastOpt [':'] cs with
    | some portPart =>
      portPart.all Char.isDigit &&
        okChars (fun c => isIUnreserved c || isSubDelim c)
          (cs.take (cs.length - portPart.length - 1))
    | none => okChars (fun c => isIUnreserved c || isSubDelim c) cs

/-- `iauthority = [ iuserinfo "@" ] ihost [ ":" port ]`. -/
def isAuthority (cs : List Char) : Bool :=
  match splitCharFirst '@' cs with
  | some pr => isIUserInfo pr.1 && isHostPort pr.2
  | none => isHostPort cs

/-- `ihier-part` (after the scheme's colon, with query and fragment already
removed). -/
def isHierPart (cs : List Char) : Bool :=
  match cs with
  | '/' :: '/' :: rest =>
    (match splitCharFirst '/' rest with
     | some pr => isAuthority pr.1 && okChars (fun c => isIPChar c || c = '/') pr.2
     | none => isAuthority rest)
  | [] => true
  | '/' :: rest => okChars (fun c => isIPChar c || c = '/') rest
  | cs => okChars (fun c => isIPChar c || c = '/') cs

/-- RFC 3987 `IRI` rule on a character sequence. -/
def isIRIChars (cs : List Char) : Bool :=
  match splitCharFirst ':' cs with
  | none => false
  | some pr =>
    isScheme pr.1 &&
    (match splitCharFirst '#' pr.2 with
     | some hqf =>
       okChars (fun c => isIPChar c || c = '/' || c = '?') hqf.2 &&
       (match splitCharFirst '?' hqf.1 with
        | some hq => isHierPart hq.1 && okChars (fun c => isIPChar c || c = '/' || c = '?') hq.2
        | none => isHierPart hqf.1)
     | none =>
       match splitCharFirst '?' pr.2 with
       | some hq => isHierPart hq.1 && okChars (fun c => isIPChar c || c = '/' || c = '?') hq.2
       | none => isHierPart pr.2)

/-! ### The URI codec (source lines 19–55) -/

/-- Source `is_uri` (line 38): true iff the string parses under the RFC 3987
`IRI` rule (the `rfc3987.parse` call returns a non-empty match dict, which is
truthy; any failure is caught and yields `False`). -/
def is_uri (s : String) : Bool := isIRIChars s.data

/-- Source `to_uri` (line 45): pass a valid IRI through unchanged, otherwise
prepend `prefix + suffix`.  The Python defaults are
`prefix="http://example.org/"`, `suffix=""`; call sites here always pass both
explicitly. -/
def to_uri (pre suffix s : String) : String :=
  if is_uri s then s else pre ++ suffix ++ s

/-- The adapter's default URI base, Python's `prefix="http://example.org/"`. -/
def exOrg : String := "http://example.org/"

/-- Source `uri_to_key` (line 19): local name after `#`, else after the last
`:`, else (only when the string contains `//`) the last `/`-segment after
stripping trailing slashes; the name is lower-cased, spaces become
underscores, and the result is stripped.  When none of `#`, `:`, `//` occurs,
the local variable `name` is never bound and Python raises a NameError. -/
def uri_to_key (uri : String) : Except PyErr String :=
  let norm := fun (name : String) => pyStrip (pySpaceToUnderscore (pyLower name))
  if pyContains uri "#" then
    Except.ok (norm (pyLastPiece "#" uri))
  else if pyContains uri ":" then
    Except.ok (norm (pyLastPiece ":" uri))
  else if pyContains uri "//" then
    Except.ok (norm (pyLastPiece "/" (pyRStripSlash uri)))
  else
    Except.error PyErr.nameError

/-! ### Literal formatting (source lines 137–155) -/

/-- One pass of Python's `str.replace(old, new)` for a single-character
pattern. -/
def replacePass (c : Char) (rep : List Char) (cs : List Char) : List Char :=
  cs.flatMap (fun x => if x = c then rep else [x])

/-- The source's escaping chain (lines 148–154): four sequential `replace`
passes — backslash, double quote, CR, LF. -/
def escapeChain (s : String) : String :=
  String.mk
    (replacePass '\n' ['\\', 'n']
      (replacePass '\r' ['\\', 'r']
        (replacePass '"' ['\\', '"']
          (replacePass '\\' ['\\', '\\'] s.data))))

/-- Python's `str(value)` for the modelled values (only the non-`str` cases
other than bool/int/float matter for the fallback branch: `str(None)` is
`"None"`). -/
def pyStr : PyVal → String
  | PyVal.none => "None"
  | PyVal.bool b => if b then "True" else "False"
  | PyVal.int n => toString n
  | PyVal.float r => r
  | PyVal.str s => s

/-- Source `_format_literal` (line 137): XSD-tagged literals for bool / int /
float, URI pass-through for strings starting with `urn:`, and a triple-quoted
escaped literal for everything else (via `str(value)`). -/
def _format_literal (v : PyVal) : String :=
  match v with
  | PyVal.bool b =>
    "\"" ++ (if b then "true" else "false") ++ "\"^^<http://www.w3.org/2001/XMLSchema#boolean>"
  | PyVal.int n => "\"" ++ toString n ++ "\"^^<http://www.w3.org/2001/XMLSchema#integer>"
  | PyVal.float r => "\"" ++ r ++ "\"^^<http://www.w3.org/2001/XMLSchema#double>"
  | v =>
    if pyStartsWith (pyStr v) "urn:" then to_uri exOrg "" (pyStr v)
    else "\"\"\"" ++ escapeChain (pyStr v) ++ "\"\"\""

/-- Source `serialize_properties` (line 157): the `UUID` and `dict` branches
convert those values to strings; on the modelled value types every value
passes through unchanged. -/
def serialize_properties (props : List (String × PyVal)) : List (String × PyVal) :=
  props

/-! ### The triple store

Modelled from the spec: the SPARQL endpoint is an external black box
("treated as a black-box endpoint accepting a query string and returning
JSON bindings").  A store is a list of RDF-star triples; `INSERT DATA`
appends the asserted triples, `SELECT ?s ?p ?o` returns one binding per
stored triple whose `value` fields are the string forms of the terms, and a
quoted-triple subject is carried by the exact `<< <s> <p> <o> >>` text the
adapter itself writes and later matches. -/

/-- An RDF-star term: an IRI, a literal (carried by its lexical form, which
is the `value` a SPARQL JSON binding exposes), or a quoted triple carried by
its `<< <s> <p> <o> >>` source text. -/
inductive Term where
  | iri (u : String)
  | lit (v : String)
  | qt (raw : String)
  deriving DecidableEq, Repr

/-- The string a SPARQL JSON binding reports as `value` for a term. -/
def termStr : Term → String
  | Term.iri u => u
  | Term.lit v => v
  | Term.qt raw => raw

/-- SPARQL `isIRI`. -/
def isIRITerm : Term → Bool
  | Term.iri _ => true
  | _ => false

/-- A stored triple. -/
structure StoreTriple where
  s : Term
  p : Term
  o : Term
  deriving DecidableEq, Repr

/-- The remote store's contents. -/
abbrev Store := List StoreTriple

/-- A source-level triple as the adapter builds it before
`_construct_insert_query` (all three positions still strings). -/
abbrev SrcTriple := String × String × String

/-- The `rdf:type` IRI, which the SPARQL keyword `a` abbreviates. -/
def rdfTypeU : String := "http://www.w3.org/1999/02/22-rdf-syntax-ns#type"

/-- The node-schema IRI counted by the metrics query. -/
def schemaNodeU : String := "http://example.org/urn:schema:node"

/-- Undo the escaping a SPARQL parser applies inside a quoted literal
(inverse of the adapter's `\\`, `\"`, `\r`, `\n` escapes). -/
def unescapeChars : List Char → List Char
  | [] => []
  | '\\' :: c :: rest =>
    (if c = 'n' then '\n' else if c = 'r' then '\r' else c) :: unescapeChars rest
  | c :: rest => c :: unescapeChars rest

/-- How the endpoint's SPARQL parser reads the object token that
`_construct_insert_query` emits verbatim (its `{obj}` interpolations): a
`"""..."""` long literal, a `"..."^^<dt>` typed literal, or a bare IRI. -/
def parseObjectTerm (s : String) : Term :=
  if pyStartsWith s "\"\"\"" then
    Term.lit (String.mk (unescapeChars ((s.data.drop 3).take (s.data.length - 6))))
  else if pyStartsWith s "\"" then
    Term.lit (String.mk ((s.data.drop 1).takeWhile (fun c => c ≠ '"')))
  else
    Term.iri s

/-- The stored triple that one source triple of `_construct_insert_query`
(source line 113) asserts, branch for branch: the `a` branch types a node
(`a` is `rdf:type`), a `<<`-prefixed subject is a quoted triple with the
predicate resolved in the relationship namespace, a URI-like object gives a
node-to-node statement, and anything else attaches the (pre-formatted)
object literal under the property namespace. -/
def insertTriple (s p o : String) : StoreTriple :=
  if p = "a" then
    ⟨Term.iri (to_uri exOrg "urn:node:" s), Term.iri rdfTypeU,
      Term.iri (to_uri exOrg "urn:node:" o)⟩
  else if pyStartsWith s "<<" then
    ⟨Term.qt s, Term.iri (to_uri exOrg "urn:relationship:" p), parseObjectTerm o⟩
  else if pyStartsWith o "urn:" || is_uri o then
    ⟨Term.iri (to_uri exOrg "urn:node:" s), Term.iri (to_uri exOrg "urn:relationship:" p),
      Term.iri (to_uri exOrg "urn:node:" o)⟩
  else
    ⟨Term.iri (to_uri exOrg "urn:node:" s), Term.iri (to_uri exOrg "urn:property:" p),
      parseObjectTerm o⟩

/-- The text of one triple inside the `INSERT DATA` update, exactly as
`_construct_insert_query` concatenates it. -/
def tripleText (s p o : String) : String :=
  if p = "a" then
    "<" ++ to_uri exOrg "urn:node:" s ++ "> a <" ++ to_uri exOrg "urn:node:" o ++ "> . "
  else if pyStartsWith s "<<" then
    s ++ " <" ++ to_uri exOrg "urn:relationship:" p ++ "> " ++ o ++ " . "
  else if pyStartsWith o "urn:" || is_uri o then
    "<" ++ to_uri exOrg "urn:node:" s ++ "> <" ++ to_uri exOrg "urn:relationship:" p ++
      "> <" ++ to_uri exOrg "urn:node:" o ++ "> . "
  else
    "<" ++ to_uri exOrg "urn:node:" s ++ "> <" ++ to_uri exOrg "urn:property:" p ++
      "> " ++ o ++ " . "

/-- Source `_construct_insert_query` (line 113). -/
def _construct_insert_query (triples : List SrcTriple) : String :=
  triples.foldl (fun q t => q ++ tripleText t.1 t.2.1 t.2.2) "INSERT DATA \x7b " ++ "\x7d"

/-- Executing an `INSERT DATA` update built from `triples` against the
store. -/
def applyInsert (store : Store) (triples : List SrcTriple) : Store :=
  store ++ triples.map (fun t => insertTriple t.1 t.2.1 t.2.2)

/-! ### Write operations (source lines 188–461) -/

/-- Source `add_node` (line 188, string overload): the initialization
`triples = [...]` on line 200 is commented out, so the local `triples` is
never bound; every control path reads it (`triples.append(...)` inside the
property loop, or the final `if triples:`), and Python raises a NameError
before any update is sent. -/
def add_node (node_id : String) (properties : List (String × PyVal)) :
    Except PyErr Unit :=
  let _ := node_id
  let _ := properties
  Except.error PyErr.nameError

/-- The property triples one node contributes inside `add_nodes` (source
lines 232–241): `None` values are skipped, every other value is formatted. -/
def node_triples (node_id : String) (properties : List (String × PyVal)) :
    List SrcTriple :=
  (properties.filter (fun kv => kv.2 ≠ PyVal.none)).map
    (fun kv => (node_id, kv.1, _format_literal kv.2))

/-- Source `add_nodes` (line 222, tuple branch — the `DataPoint` branch only
differs in where the property dict comes from): accumulate every node's
property triples and post one `INSERT DATA` update when any exist. -/
def add_nodes (store : Store) (nodes : List (String × List (String × PyVal))) :
    Store :=
  let triples := nodes.flatMap (fun n => node_triples n.1 n.2)
  if triples.isEmpty then store else applyInsert store triples

/-- The quoted-triple subject text `add_edge`/`add_edges` build for edge
properties: `f"<< <{source_uri}> <{rel_uri}> <{target_uri}> >>"`. -/
def qtRaw (s p o : String) : String :=
  "<< <" ++ s ++ "> <" ++ p ++ "> <" ++ o ++ "> >>"

/-- The triples `add_edge` builds (source lines 367–393): the base
relationship triple followed by one reified-subject triple per serialized
property. -/
def edge_triples (source_id target_id relationship_name : String)
    (properties : List (String × PyVal)) : List SrcTriple :=
  let source_uri := to_uri exOrg "urn:node:" source_id
  let target_uri := to_uri exOrg "urn:node:" target_id
  let rel_uri := to_uri exOrg "urn:relationship:" relationship_name
  (source_uri, rel_uri, target_uri) ::
    (serialize_properties properties).map
      (fun kv => (qtRaw source_uri rel_uri target_uri, kv.1, _format_literal kv.2))

/-- Source `add_edge` (line 360). -/
def add_edge (store : Store) (source_id target_id relationship_name : String)
    (properties : List (String × PyVal)) : Store :=
  applyInsert store (edge_triples source_id target_id relationship_name properties)

/-- An edge as passed to `add_edges`. -/
abbrev EdgeIn := String × String × String × List (String × PyVal)

/-- The triple list `add_edges` has accumulated when its loop ends (source
lines 409–438): the loop body starts with `triples = [(source_uri, rel_uri,
target_uri)]`, reassigning — not extending — the accumulator, so each
iteration discards every earlier edge's triples. -/
def add_edges_triples (edges : List EdgeIn) : List SrcTriple :=
  edges.foldl
    (fun _triples e => edge_triples e.1 e.2.1 e.2.2.1 e.2.2.2) []

/-- Source `add_edges` (line 403): post the accumulated triples when any
remain. -/
def add_edges (store : Store) (edges : List EdgeIn) : Store :=
  let triples := add_edges_triples edges
  if triples.isEmpty then store else applyInsert store triples

/-! ### Deletion (source lines 254–278) -/

/-- Source `delete_node`: the `DELETE/WHERE` update removes every triple
whose subject — and every triple whose object — is an IRI whose string
CONTAINS `node_id` as a substring. -/
def delete_node (store : Store) (node_id : String) : Store :=
  store.filter (fun t =>
    ¬ ((isIRITerm t.s && pyContains (termStr t.s) node_id) ||
       (isIRITerm t.o && pyContains (termStr t.o) node_id)))

/-! ### Read path (source lines 310–545) -/

/-- The bindings the `get_node` query returns (source lines 311–321): one
`(p, o)` row per stored triple whose subject is an IRI containing `node_id`
as a substring. -/
def node_bindings (store : Store) (node_id : String) : List (String × String) :=
  (store.filter (fun t => isIRITerm t.s && pyContains (termStr t.s) node_id)).map
    (fun t => (termStr t.p, termStr t.o))

/-- Python dict assignment on an insertion-ordered association list: update
in place when the key exists, append otherwise. -/
def upsert {α : Type} : List (String × α) → String → α → List (String × α)
  | [], k, v => [(k, v)]
  | (k2, v2) :: rest, k, v =>
    if k2 = k then (k, v) :: rest else (k2, v2) :: upsert rest k v

/-- The decode loop of `get_node` (source lines 327–331):
`result["p"]["value"].split("urn:property:")[1]` raises an IndexError as
soon as a predicate does not contain the marker. -/
def get_node_props (bindings : List (String × String)) :
    Except PyErr (List (String × String)) :=
  bindings.foldlM
    (fun props b =>
      match pySecondPiece "urn:property:" b.1 with
      | some predicate => Except.ok (upsert props predicate b.2)
      | none => Except.error PyErr.indexError)
    []

/-- Source `get_node` (line 310): `None` for zero bindings, otherwise the
decoded property map. -/
def get_node (store : Store) (node_id : String) :
    Except PyErr (Option (List (String × String))) :=
  let bindings := node_bindings store node_id
  if bindings.isEmpty then Except.ok Option.none
  else (get_node_props bindings).map Option.some

/-- Source `get_relation_properties` (line 463): fetch every triple whose
subject is the quoted triple written as `rel_id`, keying each property by
`uri_to_key`; the whole body is wrapped in `try/except` returning `{}` on
any error. -/
def get_relation_properties (store : Store) (rel_id : String) :
    List (String × String) :=
  let rows := (store.filter (fun t => t.s = Term.qt rel_id)).map
    (fun t => (termStr t.p, termStr t.o))
  let decoded : Except PyErr (List (String × String)) :=
    rows.foldlM
      (fun props r => do
        let prop ← uri_to_key r.1
        Except.ok (upsert props prop r.2))
      []
  match decoded with
  | Except.ok props => props
  | Except.error _ => []

/-- Running decoder state of `get_graph_data`: the node dict, the edge list,
the `properties` predicate set, and the per-call reified-property cache. -/
structure GraphAcc where
  nodes : List (String × List (String × String))
  edges : List (String × String × String × List (String × String))
  props : List String
  relCache : List (String × List (String × String))

/-- One iteration of the `get_graph_data` decode loop (source lines
496–540) on a `(s, p, o)` binding. -/
def graphStep (store : Store) (acc : GraphAcc) (b : String × String × String) :
    Except PyErr GraphAcc := do
  let subject := b.1
  let predicate := b.2.1
  let obj := b.2.2
  if pyContains subject "urn:node:" || is_uri subject || pyStartsWith subject ":" then
    let node_id ← uri_to_key subject
    let nodes0 :=
      if (acc.nodes.lookup node_id).isSome then acc.nodes else acc.nodes ++ [(node_id, [])]
    if pyContains predicate "urn:property:" || !is_uri obj || acc.props.contains predicate then
      let props2 := if acc.props.contains predicate then acc.props else acc.props ++ [predicate]
      let prop_name ← uri_to_key predicate
      let nodes2 := nodes0.map (fun kv =>
        if kv.1 = node_id then (kv.1, upsert kv.2 prop_name obj) else kv)
      Except.ok { acc with nodes := nodes2, props := props2 }
    else
      let rel_name ← uri_to_key predicate
      let target_id ←
        if pyContains obj "urn:node:" then
          match pySecondPiece "urn:node:" obj with
          | some t => Except.ok t
          | Option.none => Except.error PyErr.indexError
        else uri_to_key obj
      let node_id_obj ← uri_to_key obj
      let (edgeProps, cache2) :=
        if is_uri obj then
          let rel_id := qtRaw subject predicate obj
          match acc.relCache.lookup rel_id with
          | some cached => (cached, acc.relCache)
          | Option.none =>
            let fetched := get_relation_properties store rel_id
            (fetched, acc.relCache ++ [(rel_id, fetched)])
        else ([], acc.relCache)
      let nodes2 :=
        if (nodes0.lookup node_id_obj).isSome then nodes0 else nodes0 ++ [(node_id_obj, [])]
      Except.ok { acc with
        nodes := nodes2,
        edges := acc.edges ++ [(node_id, target_id, rel_name, edgeProps)],
        relCache := cache2 }
  else
    Except.ok acc

/-- Source `get_graph_data` (line 485): `SELECT DISTINCT ?s ?p ?o` over the
whole store, decoded row by row. -/
def get_graph_data (store : Store) :
    Except PyErr
      (List (String × List (String × String)) ×
        List (String × String × String × List (String × String))) := do
  let rows := (store.map (fun t => (termStr t.s, termStr t.p, termStr t.o))).dedup
  let acc ← rows.foldlM (graphStep store) ⟨[], [], [], []⟩
  Except.ok (acc.nodes, acc.edges)

/-- A stored triple matches the metrics pattern
`?s a <http://example.org/urn:schema:node>` iff its predicate is `rdf:type`
(which the keyword `a` abbreviates) and its object the schema-node IRI. -/
def countedB (t : StoreTriple) : Bool :=
  t.p = Term.iri rdfTypeU && t.o = Term.iri schemaNodeU

/-- Source `get_graph_metrics` (lines 547–551), node half: the count query
`SELECT (COUNT(DISTINCT ?s) ...) WHERE { ?s a <http://example.org/urn:schema:node> }`
counts the distinct subjects typed `rdf:type` (the keyword `a`) with the
schema-node object. -/
def node_count (store : Store) : Nat :=
  (((store.filter countedB).map (fun t => t.s)).dedup).length

/-- Source `get_graph_metrics` (lines 553–556), edge half: count every
triple whose predicate string contains `urn:relationship:`. -/
def edge_count (store : Store) : Nat :=
  (store.filter (fun t => pyContains (termStr t.p) "urn:relationship:")).length

/-! ### Subgraph extraction (source lines 701–753) -/

/-- The rows the `get_nodeset_subgraph` CONSTRUCT query yields (source lines
704–713): every stored triple whose subject is one of the
`<http://example.org/urn:node:{id}>` VALUES. -/
def subgraph_rows (store : Store) (node_name : List String) :
    List (String × String × String) :=
  (store.filter (fun t =>
      node_name.any (fun nid => t.s = Term.iri ("http://example.org/urn:node:" ++ nid)))).map
    (fun t => (termStr t.s, termStr t.p, termStr t.o))

/-- Decoder state of `get_nodeset_subgraph`: integer-keyed node dict, edge
list, the string-id → integer-id map and the monotonic counter. -/
structure SubgraphAcc where
  nodes : List (Nat × List (String × String))
  edges : List (Nat × Nat × String × List (String × String))
  idMap : List (String × Nat)
  next : Nat

/-- One iteration of the `get_nodeset_subgraph` decode loop (source lines
723–749); only subjects starting with the bare `urn:node:` prefix are
processed at all. -/
def subgraphStep (acc : SubgraphAcc) (b : String × String × String) : SubgraphAcc :=
  let subject := b.1
  let predicate := b.2.1
  let obj := b.2.2
  if pyStartsWith subject "urn:node:" then
    let str_node_id := (pySecondPiece "urn:node:" subject).getD ""
    let (idMap1, next1) :=
      if (acc.idMap.lookup str_node_id).isSome then (acc.idMap, acc.next)
      else (acc.idMap ++ [(str_node_id, acc.next)], acc.next + 1)
    let int_node_id := (idMap1.lookup str_node_id).getD 0
    let nodes1 :=
      if (acc.nodes.lookup int_node_id).isSome then acc.nodes
      else acc.nodes ++ [(int_node_id, [])]
    if pyStartsWith predicate "urn:property:" then
      let prop_name := (pySecondPiece "urn:property:" predicate).getD ""
      { acc with
        nodes := nodes1.map (fun kv =>
          if kv.1 = int_node_id then (kv.1, upsert kv.2 prop_name obj) else kv),
        idMap := idMap1, next := next1 }
    else if pyStartsWith predicate "urn:relationship:" then
      let rel_name := (pySecondPiece "urn:relationship:" predicate).getD ""
      if pyStartsWith obj "urn:node:" then
        let str_target_id := (pySecondPiece "urn:node:" obj).getD ""
        let (idMap2, next2) :=
          if (idMap1.lookup str_target_id).isSome then (idMap1, next1)
          else (idMap1 ++ [(str_target_id, next1)], next1 + 1)
        let int_target_id := (idMap2.lookup str_target_id).getD 0
        { acc with
          nodes := nodes1,
          edges := acc.edges ++ [(int_node_id, int_target_id, rel_name, [])],
          idMap := idMap2, next := next2 }
      else { acc with nodes := nodes1, idMap := idMap1, next := next1 }
    else { acc with nodes := nodes1, idMap := idMap1, next := next1 }
  else acc

/-- Source `get_nodeset_subgraph` (line 701). -/
def get_nodeset_subgraph (store : Store) (node_name : List String) :
    List (Nat × List (String × String)) ×
      List (Nat × Nat × String × List (String × String)) :=
  let acc := (subgraph_rows store node_name).foldl subgraphStep ⟨[], [], [], 0⟩
  (acc.nodes, acc.edges)

/-! ### Write traces -/

/-- One call to a write operation of the adapter. -/
inductive WriteOp where
  | node (node_id : String) (properties : List (String × PyVal))
  | nodes (ns : List (String × List (String × PyVal)))
  | edge (source_id target_id relationship_name : String)
      (properties : List (String × PyVal))
  | edges (es : List EdgeIn)

/-- The store after one write call.  A failing `add_node` raises before any
HTTP request, leaving the store unchanged. -/
def applyOp (store : Store) : WriteOp → Store
  | WriteOp.node _ _ => store
  | WriteOp.nodes ns => add_nodes store ns
  | WriteOp.edge s t r props => add_edge store s t r props
  | WriteOp.edges es => add_edges store es

/-- The store reached from empty through a sequence of write calls. -/
def applyTrace (ops : List WriteOp) : Store :=
  ops.foldl applyOp []

/-! ### Spec-side reference definitions

These two definitions follow the specification's words (spec §4.1), to be
compared against the source-derived `uri_to_key` and `_format_literal`. -/

/-- The local-name extraction exactly as the spec describes `uriToKey`: the
fragment after `#` if present, else the suffix after the last `:`, else the
last path segment after `/`; lower-cased, spaces to underscores, trimmed —
total on every string. -/
def uriToKey_spec (uri : String) : String :=
  let name :=
    if pyContains uri "#" then pyLastPiece "#" uri
    else if pyContains uri ":" then pyLastPiece ":" uri
    else pyLastPiece "/" uri
  pyStrip (pySpaceToUnderscore (pyLower name))

/-- A single-pass rendering of the escaping the spec describes for
`formatLiteral` (backslash, double quote, CR, LF). -/
def escapeSpecChar (c : Char) : List Char :=
  if c = '\\' then ['\\', '\\']
  else if c = '"' then ['\\', '"']
  else if c = '\r' then ['\\', 'r']
  else if c = '\n' then ['\\', 'n']
  else [c]

/-- Single-pass escaping over a whole string. -/
def escapeSpec (s : String) : String := String.mk (s.data.flatMap escapeSpecChar)

/-- The spec's `formatLiteral` contract, amended at one point: the
URI-reference branch applies to every string beginning with `urn:` (the
source tests `value.startswith("urn:")`), not only to strings beginning
with the node-namespace prefix `urn:node:`. -/
def formatLiteral_spec (v : PyVal) : String :=
  match v with
  | PyVal.bool b =>
    "\"" ++ (if b then "true" else "false") ++ "\"^^<http://www.w3.org/2001/XMLSchema#boolean>"
  | PyVal.int n => "\"" ++ toString n ++ "\"^^<http://www.w3.org/2001/XMLSchema#integer>"
  | PyVal.float r => "\"" ++ r ++ "\"^^<http://www.w3.org/2001/XMLSchema#double>"
  | v =>
    if pyStartsWith (pyStr v) "urn:" then to_uri exOrg "" (pyStr v)
    else "\"\"\"" ++ escapeSpec (pyStr v) ++ "\"\"\""

/-! ### Shared helper lemmas -/

theorem string_mk_data (s t : String) (h : s.data = t.data) : s = t :=
  congrArg String.mk h

theorem pyStartsWith_append (a b : String) : pyStartsWith (a ++ b) a = true := by
  unfold pyStartsWith
  rw [String.data_append, List.isPrefixOf_iff_prefix]
  exact List.prefix_append a.data b.data

theorem string_append_length (a b : String) :
    (a ++ b).length = a.length + b.length :=
  String.length_append a b

/-- A prefix of `a` is also a prefix of `a ++ b`. -/
theorem pyStartsWith_trans_append (a b c : String)
    (h : pyStartsWith a c = true) : pyStartsWith (a ++ b) c = true := by
  unfold pyStartsWith at *
  rw [List.isPrefixOf_iff_prefix] at h
  rw [String.data_append, List.isPrefixOf_iff_prefix]
  exact h.trans (List.prefix_append _ _)

/-- Splitting the result of `to_uri`: either the string was a valid IRI and
passed through, or the prefixed form came back. -/
theorem to_uri_cases (pre suffix s : String) :
    (is_uri s = true ∧ to_uri pre suffix s = s) ∨
      (is_uri s = false ∧ to_uri pre suffix s = pre ++ suffix ++ s) := by
  by_cases h : is_uri s = true
  · exact Or.inl ⟨h, by unfold to_uri; rw [if_pos h]⟩
  · have hf : is_uri s = false := by simpa using h
    exact Or.inr ⟨hf, by unfold to_uri; rw [if_neg h]⟩

/-- When the target string does not start with `exOrg ++ suffix`, the only
way `to_uri` can produce it is by passing it through unchanged. -/
theorem to_uri_eq_target {suffix x t : String}
    (h1 : pyStartsWith t (exOrg ++ suffix) = false)
    (h : to_uri exOrg suffix x = t) : x = t ∧ is_uri t = true := by
  rcases to_uri_cases exOrg suffix x with ⟨hu, he⟩ | ⟨hu, he⟩
  · rw [he] at h; exact ⟨h, h ▸ hu⟩
  · exfalso
    rw [he] at h
    rw [← h, pyStartsWith_append] at h1
    exact Bool.true_eq_false.mp h1

/-- `to_uri` never yields a short non-IRI target such as `"a"`: the
pass-through case would make the target a valid IRI, the prefixed case is at
least as long as `exOrg`. -/
theorem to_uri_ne_a (suffix x : String) : to_uri exOrg suffix x ≠ "a" := by
  intro h
  rcases to_uri_cases exOrg suffix x with ⟨hu, he⟩ | ⟨hu, he⟩
  · rw [he] at h; rw [h] at hu
    exact absurd hu (by decide)
  · rw [he] at h
    have hl := congrArg String.length h
    rw [string_append_length, string_append_length] at hl
    have h19 : exOrg.length = 19 := by decide
    have h1 : String.length "a" = 1 := by decide
    omega

theorem to_uri_node_eq_schemaNode {x : String}
    (h : to_uri exOrg "urn:node:" x = schemaNodeU) : x = schemaNodeU :=
  (to_uri_eq_target (by decide) h).1

theorem to_uri_rel_eq_rdfType {x : String}
    (h : to_uri exOrg "urn:relationship:" x = rdfTypeU) : x = rdfTypeU :=
  (to_uri_eq_target (by decide) h).1

/-- `_format_literal` can never output the schema-node IRI: tagged literals
and triple-quoted strings start with a quote, a `urn:`-prefixed string either
passes through (and still starts with `urn:`) or is prefixed to
`http://example.org/<value>`, which equals the schema-node IRI only for the
value `urn:schema:node` — itself a valid IRI that would have passed
through. -/
theorem format_literal_ne_schemaNode (v : PyVal) :
    _format_literal v ≠ schemaNodeU := by
  intro h
  have hq : pyStartsWith schemaNodeU "\"" = false := by decide
  have hqpos : ∀ x y : String, pyStartsWith ("\"" ++ x ++ y) "\"" = true := fun x y =>
    pyStartsWith_trans_append _ _ _ (pyStartsWith_trans_append _ _ _ (by decide))
  cases v with
  | bool b =>
    simp only [_format_literal] at h
    rw [← h, hqpos] at hq
    exact Bool.true_eq_false.mp hq
  | int n =>
    simp only [_format_literal] at h
    rw [← h, hqpos] at hq
    exact Bool.true_eq_false.mp hq
  | float r =>
    simp only [_format_literal] at h
    rw [← h, hqpos] at hq
    exact Bool.true_eq_false.mp hq
  | none => exact absurd h (by decide)
  | str s =>
    simp only [_format_literal, pyStr] at h
    by_cases hurn : pyStartsWith s "urn:" = true
    · rw [if_pos hurn] at h
      rcases to_uri_cases exOrg "" s with ⟨hu, he⟩ | ⟨hu, he⟩
      · rw [he] at h
        rw [h] at hurn
        exact absurd hurn (by decide)
      · rw [he] at h
        have hd := congrArg String.data h
        rw [String.data_append, String.data_append] at hd
        have hsplit : schemaNodeU.data = exOrg.data ++ (("" : String).data ++ "urn:schema:node".data) := by decide
        rw [hsplit, List.append_assoc] at hd
        have hx := List.append_cancel_left (List.append_cancel_left hd)
        have hs : s = "urn:schema:node" := string_mk_data _ _ hx
        rw [hs] at hu
        exact absurd hu (by decide)
    · rw [if_neg hurn] at h
      have hq3 : pyStartsWith schemaNodeU "\"\"\"" = false := by decide
      have hpos : pyStartsWith ("\"\"\"" ++ escapeChain s ++ "\"\"\"") "\"\"\"" = true :=
        pyStartsWith_trans_append _ _ _ (pyStartsWith_trans_append _ _ _ (by decide))
      rw [← h, hpos] at hq3
      exact Bool.true_eq_false.mp hq3

/-- The parsed object of a formatted literal is never the schema-node IRI. -/
theorem parse_fmt_ne_schemaNode (v : PyVal) :
    parseObjectTerm (_format_literal v) ≠ Term.iri schemaNodeU := by
  unfold parseObjectTerm
  split
  · intro h; exact Term.noConfusion h
  · split
    · intro h; exact Term.noConfusion h
    · intro h
      exact format_literal_ne_schemaNode v (Term.iri.inj h)

/-- When `parseObjectTerm` yields an IRI it is the input string itself. -/
theorem parseObjectTerm_iri {x u : String}
    (h : parseObjectTerm x = Term.iri u) : x = u := by
  unfold parseObjectTerm at h
  split at h
  · exact absurd h (fun hc => Term.noConfusion hc)
  · split at h
    · exact absurd h (fun hc => Term.noConfusion hc)
    · exact Term.iri.inj h

theorem to_uri_prop_eq_rdfType {x : String}
    (h : to_uri exOrg "urn:property:" x = rdfTypeU) : x = rdfTypeU :=
  (to_uri_eq_target (by decide) h).1

theorem countedB_false_of_not (t : StoreTriple)
    (h : ¬ (t.p = Term.iri rdfTypeU ∧ t.o = Term.iri schemaNodeU)) :
    countedB t = false := by
  unfold countedB
  by_cases hp : t.p = Term.iri rdfTypeU
  · have ho : ¬ t.o = Term.iri schemaNodeU := fun ho => h ⟨hp, ho⟩
    simp [hp, ho]
  · simp [hp]

/-- No property triple — a source triple whose object went through
`_format_literal` — is ever counted by the node-metrics pattern, whatever
its subject and key. -/
theorem insert_prop_not_counted (s p : String) (v : PyVal) :
    countedB (insertTriple s p (_format_literal v)) = false := by
  apply countedB_false_of_not
  unfold insertTriple
  split
  · rintro ⟨-, ho⟩
    exact format_literal_ne_schemaNode v (to_uri_node_eq_schemaNode (Term.iri.inj ho))
  · split
    · rintro ⟨-, ho⟩
      exact parse_fmt_ne_schemaNode v ho
    · split
      · rintro ⟨-, ho⟩
        exact format_literal_ne_schemaNode v (to_uri_node_eq_schemaNode (Term.iri.inj ho))
      · rintro ⟨-, ho⟩
        exact parse_fmt_ne_schemaNode v ho

/-- The base relationship triple of an edge is counted by the node-metrics
pattern only when the caller passed the `rdf:type` IRI as relationship name
and the schema-node IRI as target id. -/
theorem insert_base_not_counted (src tgt rel : String)
    (h : ¬ (rel = rdfTypeU ∧ tgt = schemaNodeU)) :
    countedB (insertTriple
      (to_uri exOrg "urn:node:" src) (to_uri exOrg "urn:relationship:" rel)
      (to_uri exOrg "urn:node:" tgt)) = false := by
  apply countedB_false_of_not
  unfold insertTriple
  split
  · rename_i ha
    exact absurd ha (to_uri_ne_a _ rel)
  · split
    · rintro ⟨hp, ho⟩
      exact h ⟨to_uri_rel_eq_rdfType (to_uri_rel_eq_rdfType (Term.iri.inj hp)),
        to_uri_node_eq_schemaNode (parseObjectTerm_iri ho)⟩
    · split
      · rintro ⟨hp, ho⟩
        exact h ⟨to_uri_rel_eq_rdfType (to_uri_rel_eq_rdfType (Term.iri.inj hp)),
          to_uri_node_eq_schemaNode (to_uri_node_eq_schemaNode (Term.iri.inj ho))⟩
      · rintro ⟨hp, ho⟩
        exact h ⟨to_uri_rel_eq_rdfType (to_uri_prop_eq_rdfType (Term.iri.inj hp)),
          to_uri_node_eq_schemaNode (parseObjectTerm_iri ho)⟩

theorem node_count_eq_zero (store : Store)
    (h : ∀ t ∈ store, countedB t = false) : node_count store = 0 := by
  unfold node_count
  have hf : store.filter countedB = [] :=
    List.filter_eq_nil_iff.mpr (fun t ht => by simp [h t ht])
  rw [hf]
  rfl

/-- A fold whose body ignores its accumulator returns the image of the last
element (this is the shape `add_edges` leaves its `triples` variable in). -/
theorem foldl_replace {α β : Type} (f : α → β) :
    ∀ (l : List α) (init : β), l ≠ [] →
      ∃ e, l.getLast? = some e ∧ l.foldl (fun _ x => f x) init = f e
  | [], _, h => absurd rfl h
  | [a], _, _ => ⟨a, by simp, rfl⟩
  | a :: b :: l, init, _ => by
    obtain ⟨e, he, hf⟩ := foldl_replace f (b :: l) (f a) (by simp)
    exact ⟨e, by rw [List.getLast?_cons_cons]; exact he, hf⟩

/-- A write call is benign for the node metric unless it writes an edge
whose relationship name is the `rdf:type` IRI and whose target id is the
schema-node IRI. -/
def okOpB : WriteOp → Bool
  | WriteOp.node _ _ => true
  | WriteOp.nodes _ => true
  | WriteOp.edge _ tgt rel _ => !(rel == rdfTypeU && tgt == schemaNodeU)
  | WriteOp.edges es => es.all (fun e => !(e.2.2.1 == rdfTypeU && e.2.1 == schemaNodeU))

/-- Any list member whose last element is delivered by `getLast?` is a
member of the list. -/
theorem mem_of_getLast_opt {α : Type} {l : List α} {a : α}
    (h : l.getLast? = some a) : a ∈ l := by
  induction l with
  | nil => simp at h
  | cons b t ih =>
    cases t with
    | nil => simp at h; simp [h]
    | cons c u =>
      rw [List.getLast?_cons_cons] at h
      exact List.mem_cons_of_mem b (ih h)

theorem edge_triples_not_counted (src tgt rel : String)
    (props : List (String × PyVal)) (h : ¬ (rel = rdfTypeU ∧ tgt = schemaNodeU)) :
    ∀ t ∈ (edge_triples src tgt rel props).map (fun t => insertTriple t.1 t.2.1 t.2.2),
      countedB t = false := by
  intro t ht
  rw [List.mem_map] at ht
  obtain ⟨srcT, hm, rfl⟩ := ht
  unfold edge_triples at hm
  rw [List.mem_cons] at hm
  cases hm with
  | inl hbase => rw [hbase]; exact insert_base_not_counted src tgt rel h
  | inr hprop =>
    rw [List.mem_map] at hprop
    obtain ⟨kv, _, rfl⟩ := hprop
    exact insert_prop_not_counted _ _ _

theorem node_triples_not_counted (ns : List (String × List (String × PyVal))) :
    ∀ t ∈ ((ns.flatMap fun n => node_triples n.1 n.2).map
        (fun t => insertTriple t.1 t.2.1 t.2.2)),
      countedB t = false := by
  intro t ht
  rw [List.mem_map] at ht
  obtain ⟨srcT, hm, rfl⟩ := ht
  rw [List.mem_flatMap] at hm
  obtain ⟨n, _, hn⟩ := hm
  unfold node_triples at hn
  rw [List.mem_map] at hn
  obtain ⟨kv, _, rfl⟩ := hn
  exact insert_prop_not_counted _ _ _

theorem applyOp_no_counted (store : Store) (op : WriteOp)
    (hs : ∀ t ∈ store, countedB t = false) (hop : okOpB op = true) :
    ∀ t ∈ applyOp store op, countedB t = false := by
  cases op with
  | node nid props => exact hs
  | nodes ns =>
    intro t ht
    simp only [applyOp, add_nodes] at ht
    by_cases he : (ns.flatMap fun n => node_triples n.1 n.2).isEmpty = true
    · rw [if_pos he] at ht
      exact hs t ht
    · rw [if_neg he] at ht
      simp only [applyInsert] at ht
      rw [List.mem_append] at ht
      cases ht with
      | inl hl => exact hs t hl
      | inr hr => exact node_triples_not_counted ns t hr
  | edge src tgt rel props =>
    intro t ht
    simp only [applyOp, add_edge, applyInsert] at ht
    rw [List.mem_append] at ht
    have hok : ¬ (rel = rdfTypeU ∧ tgt = schemaNodeU) := by
      simp only [okOpB, Bool.not_eq_true', Bool.and_eq_false_iff, beq_eq_false_iff_ne,
        ne_eq] at hop
      rintro ⟨h1, h2⟩
      cases hop with
      | inl hh => exact hh h1
      | inr hh => exact hh h2
    cases ht with
    | inl hl => exact hs t hl
    | inr hr => exact edge_triples_not_counted src tgt rel props hok t hr
  | edges es =>
    intro t ht
    simp only [applyOp, add_edges] at ht
    by_cases he : (add_edges_triples es).isEmpty = true
    · rw [if_pos he] at ht
      exact hs t ht
    · rw [if_neg he] at ht
      simp only [applyInsert] at ht
      rw [List.mem_append] at ht
      cases ht with
      | inl hl => exact hs t hl
      | inr hr =>
        have hesne : es ≠ [] := by
          intro hnil
          rw [hnil] at he
          exact he rfl
        obtain ⟨e, hlast, hf⟩ :=
          foldl_replace (fun e : EdgeIn => edge_triples e.1 e.2.1 e.2.2.1 e.2.2.2)
            es [] hesne
        have hmem : e ∈ es := mem_of_getLast_opt hlast
        have hok : ¬ (e.2.2.1 = rdfTypeU ∧ e.2.1 = schemaNodeU) := by
          simp only [okOpB, List.all_eq_true, Bool.not_eq_true', Bool.and_eq_false_iff,
            beq_eq_false_iff_ne, ne_eq] at hop
          rintro ⟨h1, h2⟩
          cases hop e hmem with
          | inl hh => exact hh h1
          | inr hh => exact hh h2
        rw [show add_edges_triples es =
              edge_triples e.1 e.2.1 e.2.2.1 e.2.2.2 from hf] at hr
        exact edge_triples_not_counted e.1 e.2.1 e.2.2.1 e.2.2.2 hok t hr

theorem replacePass_cons (c : Char) (rep : List Char) (x : Char) (l : List Char) :
    replacePass c rep (x :: l) =
      (if x = c then rep else [x]) ++ replacePass c rep l := by
  simp [replacePass]

theorem replacePass_append (c : Char) (rep : List Char) (l1 l2 : List Char) :
    replacePass c rep (l1 ++ l2) = replacePass c rep l1 ++ replacePass c rep l2 := by
  simp [replacePass]

/-- The source's four sequential `replace` passes coincide with the
single-pass escaping the spec describes: the backslashes introduced for a
quote, CR or LF are never re-doubled because the backslash pass runs
first. -/
theorem escape_chain_eq_spec (s : String) : escapeChain s = escapeSpec s := by
  unfold escapeChain escapeSpec
  congr 1
  induction s.data with
  | nil => rfl
  | cons c l ih =>
    rw [List.flatMap_cons, replacePass_cons, replacePass_append, replacePass_append,
      replacePass_append, ← ih]
    congr 1
    by_cases h1 : c = '\\'
    · subst h1; rfl
    · by_cases h2 : c = '"'
      · subst h2; rfl
      · by_cases h3 : c = '\r'
        · subst h3; rfl
        · by_cases h4 : c = '\n'
          · subst h4; rfl
          · simp [escapeSpecChar, replacePass, h1, h2, h3, h4]

/-- A failing classification makes `pySecondPiece` empty and vice versa. -/
theorem pySecondPiece_none_iff (sep s : String) :
    pySecondPiece sep s = Option.none ↔ pyContains s sep = false := by
  unfold pySecondPiece pyContains secondPiece
  cases h : findSplit sep.data s.data with
  | none => simp [h]
  | some pr => simp [h]

/-- The `get_node` decode loop errors as soon as any binding's predicate
lacks the `urn:property:` marker, whatever well-formed bindings surround
it. -/
theorem get_node_props_error (bindings : List (String × String))
    (h : ∃ b ∈ bindings, pyContains b.1 "urn:property:" = false) :
    get_node_props bindings = Except.error PyErr.indexError := by
  unfold get_node_props
  suffices H : ∀ (bs : List (String × String)) (init : List (String × String)),
      (∃ b ∈ bs, pyContains b.1 "urn:property:" = false) →
      bs.foldlM
        (fun props b =>
          match pySecondPiece "urn:property:" b.1 with
          | some predicate => Except.ok (upsert props predicate b.2)
          | Option.none => Except.error PyErr.indexError)
        init = Except.error PyErr.indexError from
    H bindings [] h
  intro bs
  induction bs with
  | nil => intro init hex; simp at hex
  | cons b bs ih =>
    intro init hex
    by_cases hb : pyContains b.1 "urn:property:" = false
    · have hn : pySecondPiece "urn:property:" b.1 = Option.none :=
        (pySecondPiece_none_iff _ _).mpr hb
      rw [List.foldlM_cons, hn]
      rfl
    · have hbt : pyContains b.1 "urn:property:" = true := by simpa using hb
      have hs : ∃ q, pySecondPiece "urn:property:" b.1 = some q := by
        cases hq : pySecondPiece "urn:property:" b.1 with
        | none => exact absurd ((pySecondPiece_none_iff _ _).mp hq) (by simp [hbt])
        | some q => exact ⟨q, rfl⟩
      obtain ⟨q, hq⟩ := hs
      obtain ⟨b2, hb2mem, hb2⟩ := hex
      rw [List.mem_cons] at hb2mem
      cases hb2mem with
      | inl heq => rw [heq] at hb2; exact absurd hb2 (by simp [hbt])
      | inr hin =>
        rw [List.foldlM_cons, hq]
        exact ih _ ⟨b2, hin, hb2⟩

/-- Subjects returned by the subgraph CONSTRUCT query never carry the bare
`urn:node:` prefix — they start with `http://example.org/`. -/
theorem not_starts_urnnode (nid : String) :
    pyStartsWith ("http://example.org/urn:node:" ++ nid) "urn:node:" = false := by
  unfold pyStartsWith
  rw [String.data_append]
  have h1 : "http://example.org/urn:node:".data =
      'h' :: "ttp://example.org/urn:node:".data := rfl
  have h2 : "urn:node:".data = 'u' :: "rn:node:".data := rfl
  rw [h1, h2, List.cons_append]
  simp [List.isPrefixOf]

theorem subgraph_rows_subject (store : Store) (names : List String) :
    ∀ b ∈ subgraph_rows store names, pyStartsWith b.1 "urn:node:" = false := by
  intro b hb
  unfold subgraph_rows at hb
  rw [List.mem_map] at hb
  obtain ⟨t, htm, rfl⟩ := hb
  rw [List.mem_filter] at htm
  have hany := htm.2
  rw [List.any_eq_true] at hany
  obtain ⟨nid, _, heq⟩ := hany
  rw [decide_eq_true_eq] at heq
  show pyStartsWith (termStr t.s) "urn:node:" = false
  rw [heq]
  exact not_starts_urnnode nid

theorem subgraph_fold_skip (rows : List (String × String × String)) (acc : SubgraphAcc)
    (h : ∀ b ∈ rows, pyStartsWith b.1 "urn:node:" = false) :
    rows.foldl subgraphStep acc = acc := by
  induction rows generalizing acc with
  | nil => rfl
  | cons b rows ih =>
    rw [List.foldl_cons]
    have hb := h b (List.mem_cons_self b rows)
    have hstep : subgraphStep acc b = acc := by
      unfold subgraphStep
      rw [if_neg (by simp [hb])]
    rw [hstep]
    exact ih acc (fun b2 hb2 => h b2 (List.mem_cons_of_mem b hb2))

theorem trace_no_counted (ops : List WriteOp) (h : ops.all okOpB = true) :
    ∀ t ∈ applyTrace ops, countedB t = false := by
  unfold applyTrace
  suffices H : ∀ (l : List WriteOp) (store : Store), l.all okOpB = true →
      (∀ t ∈ store, countedB t = false) →
      ∀ t ∈ l.foldl applyOp store, countedB t = false from
    H ops [] h (by simp)
  intro l
  induction l with
  | nil => intro store _ hs; simpa using hs
  | cons op rest ih =>
    intro store hall hs
    rw [List.all_cons, Bool.and_eq_true] at hall
    rw [List.foldl_cons]
    exact ih (applyOp store op) hall.2 (applyOp_no_counted store op hs hall.1)

/-- Decidable equality for `Except` results, so closed statements about the
adapter's fallible operations can be settled by evaluation. -/
instance exceptDecEq {ε α : Type} [DecidableEq ε] [DecidableEq α] :
    DecidableEq (Except ε α)
  | Except.ok a, Except.ok b =>
    if h : a = b then isTrue (by rw [h])
    else isFalse (fun hc => h (Except.ok.inj hc))
  | Except.ok _, Except.error _ => isFalse (fun hc => Except.noConfusion hc)
  | Except.error _, Except.ok _ => isFalse (fun hc => Except.noConfusion hc)
  | Except.error e, Except.error f =>
    if h : e = f then isTrue (by rw [h])
    else isFalse (fun hc => h (Except.error.inj hc))

/-- Materialized instance keeping decidability search shallow for node
rows. -/
instance nodeRowDecEq : DecidableEq (String × List (String × String)) :=
  inferInstance

/-- Materialized instance keeping decidability search shallow for edge
rows. -/
instance edgeRowDecEq :
    DecidableEq (String × String × String × List (String × String)) :=
  inferInstance

/-- Materialized instance keeping decidability search shallow for remapped
node rows. -/
instance intNodeRowDecEq : DecidableEq (Nat × List (String × String)) :=
  inferInstance

/-- Materialized instance keeping decidability search shallow for remapped
edge rows. -/
instance intEdgeRowDecEq :
    DecidableEq (Nat × Nat × String × List (String × String)) :=
  inferInstance

/-! ### Concrete stores used by counterexamples and witnesses -/

/-- Store holding the two nodes `"a"` and `"alpha"`, each with one `name`
property, written through `add_nodes`. -/
def abStore : Store :=
  add_nodes [] [("a", [("name", PyVal.str "A")]), ("alpha", [("name", PyVal.str "B")])]

/-- Store holding node `"1"` with a `name` property and a `knows` edge from
`"1"` to `"2"`. -/
def oneKnowsStore : Store :=
  add_edge (add_nodes [] [("1", [("name", PyVal.str "Alice")])]) "1" "2" "knows" []

/-- Store produced by `add_edge("1", "2", "knows", {"since": 2020})` on an
empty repository. -/
def sinceStore : Store := add_edge [] "1" "2" "knows" [("since", PyVal.int 2020)]

/-- Store where node `"1"` has a `knows` edge to node `"2"`. -/
def knowsStore : Store := add_edge [] "1" "2" "knows" []

/-- A two-edge input list for `add_edges`. -/
def twoEdges : List EdgeIn := [("1", "2", "knows", []), ("3", "4", "likes", [])]

/-! ### Claim theorems -/

/-- C1: the claimed `add_node`/`get_node` round trip never happens — the
write path always raises.  For every node id and property map, `add_node`
raises a NameError because the `triples` initialization on source line 200
is commented out, so the write never reaches the store (the repository's own
unit test calls `add_node("1", {"name": "Alice"})` and expects it to
succeed). -/
theorem C1_add_node_always_raises (node_id : String)
    (properties : List (String × PyVal)) :
    add_node node_id properties = Except.error PyErr.nameError := rfl

/-- C2: deletion is substring-matched, not exact-URI-matched.  In a store
holding the two distinct nodes `"a"` and `"alpha"`, `delete_node("a")`
removes every triple — including `"alpha"`'s `name` triple, because the
DELETE filter uses `CONTAINS(STR(?node), "a")` and `"a"` occurs inside
`http://example.org/urn:node:alpha`. -/
theorem C2_delete_node_substring_collateral :
    (⟨Term.iri "http://example.org/urn:node:alpha",
        Term.iri "http://example.org/urn:property:name",
        Term.lit "B"⟩ : StoreTriple) ∈ abStore ∧
      delete_node abStore "a" = [] := by
  constructor
  · decide
  · decide

/-- C3 (counterexample): the `get_node` decoder does not skip a binding
whose predicate lacks the `urn:property:` marker — on a node that also has a
`knows` relationship triple it raises an IndexError instead of returning the
property map. -/
theorem C3_counterexample :
    get_node oneKnowsStore "1" = Except.error PyErr.indexError ∧
      get_node oneKnowsStore "1" ≠ Except.ok (some [("name", "Alice")]) := by
  constructor
  · decide
  · decide

/-- C3 (amended): whenever any result binding of the `get_node` query has a
predicate that cannot be classified under `urn:property:` (for example a
relationship triple), the decode loop raises an IndexError — the binding is
not skipped and no property map is returned. -/
theorem C3_read_path_raises (store : Store) (node_id : String)
    (h : ∃ b ∈ node_bindings store node_id, pyContains b.1 "urn:property:" = false) :
    get_node store node_id = Except.error PyErr.indexError := by
  simp only [get_node]
  have hne : (node_bindings store node_id).isEmpty = false := by
    obtain ⟨b, hmem, -⟩ := h
    cases hbs : node_bindings store node_id with
    | nil => rw [hbs] at hmem; simp at hmem
    | cons x xs => rfl
  rw [if_neg (by simp [hne]), get_node_props_error _ h]
  rfl

/-- C3 (witness): the amended theorem applied to the concrete store whose
node `"1"` carries a relationship triple. -/
theorem C3_read_path_raises_witness :
    (∃ b ∈ node_bindings oneKnowsStore "1",
        pyContains b.1 "urn:property:" = false) ∧
      get_node oneKnowsStore "1" = Except.error PyErr.indexError :=
  ⟨by decide, C3_read_path_raises oneKnowsStore "1" (by decide)⟩

set_option maxRecDepth 8192 in
/-- C4: after `add_edge("1","2","knows",{"since":2020})`, `get_graph_data`
returns the edge tuple `("1","2","knows")` whose property map holds
`"since" ↦ "2020"` (string-typed), fetched through the reified quoted-triple
lookup — stated with the concrete decoded node and edge lists and verified
by evaluation. -/
theorem C4_edge_property_roundtrip :
    ∃ nodes edges, get_graph_data sinceStore = Except.ok (nodes, edges) ∧
      ("1", "2", "knows", [("since", "2020")]) ∈ edges := by
  refine ⟨[("1", []), ("2", []), ("2>_>>", [("since", "2020")])],
    [("1", "2", "knows", [("since", "2020")])], ?_, ?_⟩
  · decide
  · decide

/-- C5 (counterexample): with the `1 → knows → 2` store written through this
adapter, `get_nodeset_subgraph(_, ["1","2"])` does not return the claimed
two remapped nodes and one edge. -/
theorem C5_counterexample :
    get_nodeset_subgraph knowsStore ["1", "2"] ≠
      ([(0, []), (1, [])], [(0, 1, "knows", [])]) := by
  decide

/-- C5 (amended): `get_nodeset_subgraph` returns no nodes and no edges for
every store and every id list: the CONSTRUCT query binds subjects to
`http://example.org/urn:node:`-prefixed URIs while the decoder only
processes subjects starting with the bare `urn:node:` prefix, so the
remapping counter never assigns an id. -/
theorem C5_subgraph_always_empty (store : Store) (names : List String) :
    get_nodeset_subgraph store names = ([], []) := by
  unfold get_nodeset_subgraph
  rw [subgraph_fold_skip _ _ (subgraph_rows_subject store names)]

/-- C6 (counterexample): a string beginning with `urn:` but not with the
node-namespace prefix `urn:node:` is still emitted as a URI reference, not
as the triple-quoted literal the claim requires. -/
theorem C6_counterexample :
    _format_literal (PyVal.str "urn:a") = "urn:a" ∧
      _format_literal (PyVal.str "urn:a") ≠ "\"\"\"urn:a\"\"\"" := by
  constructor
  · decide
  · decide

/-- C6 (amended): `_format_literal` matches the spec's `formatLiteral`
contract once the URI-reference branch is read as applying to every string
beginning with `urn:` — booleans become lowercase `true`/`false` tagged
`xsd:boolean`, integers their text tagged `xsd:integer`, floats their text
tagged `xsd:double`, `urn:`-prefixed strings URI references, and all other
values triple-quoted literals escaping backslash, quote, CR and LF. -/
theorem C6_format_literal_amended (v : PyVal) :
    _format_literal v = formatLiteral_spec v := by
  cases v with
  | bool b => rfl
  | int n => rfl
  | float r => rfl
  | none =>
    simp only [_format_literal, formatLiteral_spec, pyStr, escape_chain_eq_spec]
  | str s =>
    simp only [_format_literal, formatLiteral_spec, pyStr, escape_chain_eq_spec]

/-- C7 (counterexample): `uri_to_key` is not total — on a string containing
none of `#`, `:` or `//` the local variable `name` is unbound and a
NameError is raised, where the claim demands the (trimmed, lower-cased)
string itself. -/
theorem C7_counterexample :
    uri_to_key "abc" = Except.error PyErr.nameError ∧
      uriToKey_spec "abc" = "abc" := by
  constructor
  · decide
  · decide

/-- C7 (amended): on every string containing `#` or `:`, `uri_to_key`
returns the spec's local name (after `#`, else after the last `:`,
lower-cased, spaces to underscores, trimmed) — it is a pure function of its
input; but on strings containing none of `#`, `:`, `//` it raises a
NameError instead of being total (and its path branch requires `//`, not
`/`). -/
theorem C7_uri_to_key_amended (s : String) :
    ((pyContains s "#" = true ∨ pyContains s ":" = true) →
      uri_to_key s = Except.ok (uriToKey_spec s)) ∧
    (pyContains s "#" = false → pyContains s ":" = false →
      pyContains s "//" = false →
      uri_to_key s = Except.error PyErr.nameError) := by
  constructor
  · intro h
    by_cases h1 : pyContains s "#" = true
    · simp [uri_to_key, uriToKey_spec, h1]
    · have h1f : pyContains s "#" = false := by simpa using h1
      have h2 : pyContains s ":" = true := by
        cases h with
        | inl hh => exact absurd hh h1
        | inr hh => exact hh
      simp [uri_to_key, uriToKey_spec, h1f, h2]
  · intro h1 h2 h3
    simp [uri_to_key, h1, h2, h3]

/-- C7 (witness): the amended theorem applied to a concrete URI containing
`#` (with a space and upper-case letters exercising the normalization). -/
theorem C7_uri_to_key_witness :
    (pyContains "http://x.org/Thing#My Part" "#" = true ∨
      pyContains "http://x.org/Thing#My Part" ":" = true) ∧
      uri_to_key "http://x.org/Thing#My Part" =
        Except.ok (uriToKey_spec "http://x.org/Thing#My Part") :=
  ⟨Or.inl (by decide),
    (C7_uri_to_key_amended "http://x.org/Thing#My Part").1 (Or.inl (by decide))⟩

/-- C8 (counterexample): `to_uri` is not idempotent on every input — when
the value (here `"foo bar"`, whose space makes the prefixed form an invalid
IRI) is prefixed, a second application prefixes again. -/
theorem C8_counterexample :
    to_uri exOrg "" (to_uri exOrg "" "foo bar") ≠ to_uri exOrg "" "foo bar" := by
  decide

/-- C8 (amended): `to_uri` returns the value unchanged when it parses as a
valid IRI and otherwise returns prefix ++ suffix ++ value; applying it twice
equals applying it once whenever the first application's result is itself a
valid IRI (in particular whenever the input already is one). -/
theorem C8_to_uri_idempotent_on_iri (pre suffix s : String)
    (h : is_uri (to_uri pre suffix s) = true) :
    to_uri pre suffix (to_uri pre suffix s) = to_uri pre suffix s := by
  have hstep : to_uri pre suffix (to_uri pre suffix s) =
      if is_uri (to_uri pre suffix s) = true then to_uri pre suffix s
      else pre ++ suffix ++ to_uri pre suffix s := rfl
  rw [hstep, if_pos h]

/-- C8 (witness): the amended theorem applied to the value `"abc"`, whose
prefixed form `http://example.org/abc` is a valid IRI. -/
theorem C8_to_uri_idempotent_witness :
    is_uri (to_uri exOrg "" "abc") = true ∧
      to_uri exOrg "" (to_uri exOrg "" "abc") = to_uri exOrg "" "abc" :=
  ⟨by decide, C8_to_uri_idempotent_on_iri exOrg "" "abc" (by decide)⟩

/-- C9: for every list of two or more edges, `add_edges` ends its loop with
only the last edge's base and property triples — the loop body reassigns
`triples` each iteration — so the `INSERT DATA` update it posts is exactly
the one `add_edge` would build for the last edge alone. -/
theorem C9_add_edges_writes_last_only (edges : List EdgeIn)
    (h : 2 ≤ edges.length) :
    ∃ e, edges.getLast? = some e ∧
      add_edges_triples edges = edge_triples e.1 e.2.1 e.2.2.1 e.2.2.2 ∧
      _construct_insert_query (add_edges_triples edges) =
        _construct_insert_query (edge_triples e.1 e.2.1 e.2.2.1 e.2.2.2) := by
  have hne : edges ≠ [] := by
    intro hnil
    rw [hnil] at h
    exact absurd h (by simp)
  obtain ⟨e, he, hf⟩ :=
    foldl_replace (fun e : EdgeIn => edge_triples e.1 e.2.1 e.2.2.1 e.2.2.2)
      edges [] hne
  exact ⟨e, he, hf, by rw [show add_edges_triples edges =
    edge_triples e.1 e.2.1 e.2.2.1 e.2.2.2 from hf]⟩

/-- C9 (witness): the theorem applied to a concrete two-edge list. -/
theorem C9_add_edges_witness :
    2 ≤ twoEdges.length ∧
      ∃ e, twoEdges.getLast? = some e ∧
        add_edges_triples twoEdges = edge_triples e.1 e.2.1 e.2.2.1 e.2.2.2 ∧
        _construct_insert_query (add_edges_triples twoEdges) =
          _construct_insert_query (edge_triples e.1 e.2.1 e.2.2.1 e.2.2.2) :=
  ⟨by decide, C9_add_edges_writes_last_only twoEdges (by decide)⟩

/-- C10 (counterexample): a store reachable through one `add_edge` call —
with the `rdf:type` URI as relationship name and the schema-node URI as
target id, both passed through `to_uri` unchanged — does carry a counted
type triple, so `get_graph_metrics` reports `node_count = 1`, not `0`. -/
theorem C10_counterexample :
    node_count (applyTrace [WriteOp.edge "x" schemaNodeU rdfTypeU []]) = 1 := by
  decide

/-- C10 (amended): for every store reachable only through this adapter's
write operations, the metrics node count is `0` provided no written edge
combines the `rdf:type` URI as relationship name with the schema-node URI as
target id: `add_node` raises before writing, and no other write path can
insert an `a <http://example.org/urn:schema:node>` triple. -/
theorem C10_node_count_zero (ops : List WriteOp) (h : ops.all okOpB = true) :
    node_count (applyTrace ops) = 0 :=
  node_count_eq_zero _ (trace_no_counted ops h)

/-- C10 (witness): the amended theorem applied to a concrete trace writing a
node and an ordinary edge. -/
theorem C10_node_count_zero_witness :
    ([WriteOp.nodes [("1", [("name", PyVal.str "Alice")])],
        WriteOp.edge "1" "2" "knows" []].all okOpB = true) ∧
      node_count (applyTrace [WriteOp.nodes [("1", [("name", PyVal.str "Alice")])],
        WriteOp.edge "1" "2" "knows" []]) = 0 :=
  ⟨by decide, C10_node_count_zero _ (by decide)⟩

end Ontotext
